import Mathlib

set_option maxRecDepth 10000

/-!
Shallow embedding of the key-derivation and payload-encoding pipeline of
aklog-kafs.c (kafs-client).  Bytes are modelled as natural numbers; every C
byte-level operation masks its result below 256 exactly where the C code
does (unsigned char arithmetic).  Buffers are lists of naturals; pointer
arithmetic into a buffer is modelled by explicit offsets.
-/

namespace Aklog

/-! ### DES byte-level primitives (OpenSSL collaborators)

The program calls the OpenSSL primitives DES_set_odd_parity and
DES_is_weak_key.  They are modelled here from their standard, documented
semantics: DES_set_odd_parity forces each byte of the key to odd bit
parity by adjusting its least-significant (parity) bit;  DES_is_weak_key
compares the key against the fixed table of 16 weak and semi-weak DES
keys (OpenSSL crypto/des/set_key.c). -/

/-- Parity (as xor of the low 8 bits) of a byte value. -/
def byteParity (b : Nat) : Bool :=
  xor (b.testBit 0) (xor (b.testBit 1) (xor (b.testBit 2) (xor (b.testBit 3)
    (xor (b.testBit 4) (xor (b.testBit 5) (xor (b.testBit 6) (b.testBit 7)))))))

/-- One byte of DES_set_odd_parity: keep the 7 data bits (mask 0xfe) and
set the parity bit so that the byte has an odd number of set bits. -/
def DES_set_odd_parity_byte (b : Nat) : Nat :=
  if byteParity (b &&& 0xfe) then b &&& 0xfe else (b &&& 0xfe) ||| 1

/-- DES_set_odd_parity applied to a whole key (byte list). -/
def DES_set_odd_parity (k : List Nat) : List Nat :=
  k.map DES_set_odd_parity_byte

/-- The 16 weak and semi-weak DES keys checked by OpenSSL DES_is_weak_key. -/
def des_weak_keys : List (List Nat) :=
  [[0x01, 0x01, 0x01, 0x01, 0x01, 0x01, 0x01, 0x01],
   [0xFE, 0xFE, 0xFE, 0xFE, 0xFE, 0xFE, 0xFE, 0xFE],
   [0x1F, 0x1F, 0x1F, 0x1F, 0x0E, 0x0E, 0x0E, 0x0E],
   [0xE0, 0xE0, 0xE0, 0xE0, 0xF1, 0xF1, 0xF1, 0xF1],
   [0x01, 0xFE, 0x01, 0xFE, 0x01, 0xFE, 0x01, 0xFE],
   [0xFE, 0x01, 0xFE, 0x01, 0xFE, 0x01, 0xFE, 0x01],
   [0x1F, 0xE0, 0x1F, 0xE0, 0x0E, 0xF1, 0x0E, 0xF1],
   [0xE0, 0x1F, 0xE0, 0x1F, 0xF1, 0x0E, 0xF1, 0x0E],
   [0x01, 0xE0, 0x01, 0xE0, 0x01, 0xF1, 0x01, 0xF1],
   [0xE0, 0x01, 0xE0, 0x01, 0xF1, 0x01, 0xF1, 0x01],
   [0x1F, 0xFE, 0x1F, 0xFE, 0x0E, 0xFE, 0x0E, 0xFE],
   [0xFE, 0x1F, 0xFE, 0x1F, 0xFE, 0x0E, 0xFE, 0x0E],
   [0x01, 0x1F, 0x01, 0x1F, 0x01, 0x0E, 0x01, 0x0E],
   [0x1F, 0x01, 0x1F, 0x01, 0x0E, 0x01, 0x0E, 0x01],
   [0xE0, 0xFE, 0xE0, 0xFE, 0xF1, 0xFE, 0xF1, 0xFE],
   [0xFE, 0xE0, 0xFE, 0xE0, 0xFE, 0xF1, 0xFE, 0xF1]]

/-- DES_is_weak_key: membership of the 8-byte key in the weak-key table. -/
def DES_is_weak_key (k : List Nat) : Bool :=
  des_weak_keys.contains k

/-! ### des3_strip_parity_bits (aklog-kafs.c lines 82-93)

The C function reads k[7] once into the rolling reservoir lsbs, then for
i in 0..6 emits (k[i] and 0xfe) or (lsbs and 1), shifting lsbs right by
one after each byte.  stripLoop is the loop body with the counter i and
the reservoir explicit; the final argument is the number of iterations
still to run (7 - i), so that recursion is structural. -/

def stripLoop (k : List Nat) (lsbs i : Nat) : Nat → List Nat
  | 0 => []
  | fuel + 1 =>
      (((k.getD i 0) &&& 0xfe) ||| (lsbs &&& 1)) :: stripLoop k (lsbs >>> 1) (i + 1) fuel

/-- des3_strip_parity_bits: 8-octet DES block to 7-octet random string. -/
def des3_strip_parity_bits (k : List Nat) : List Nat :=
  stripLoop k ((k.getD 7 0) >>> 1) 0 7

/-! ### des3_key_to_random (aklog-kafs.c lines 100-113)

The C loop runs `while (len > 8)`, advancing the key pointer by 8 and the
output pointer by 7 each round and returning the accumulated output
length.  This is the functional (non-aliased) rendering: the output is
the returned list, whose length is the returned new_len.  Note the strict
comparison: a trailing block of exactly 8 bytes is never processed.  The
fuel argument of the loop only bounds the iteration count (each round
consumes 8 bytes, so any fuel of at least the buffer length is
inexhaustible); it makes the recursion structural. -/

def unweaveLoop : Nat → List Nat → List Nat
  | 0, _ => []
  | fuel + 1, key =>
      if 8 < key.length then
        des3_strip_parity_bits key ++ unweaveLoop fuel (key.drop 8)
      else
        []

def des3_key_to_random (key : List Nat) : List Nat :=
  unweaveLoop key.length key

/-! ### Key derivation function (aklog-kafs.c lines 115-175)

The 11-byte packed struct kdf_data is the HMAC message: a 1-byte counter,
the 6-byte label "rxkad" (NUL included), and the 4-byte big-endian
constant 64.  The HMAC-MD5 primitive itself is an OpenSSL collaborator;
the KDF is parametrised by it as a function from (key, message) to the
digest byte list. -/

/-- The kdf_data struct contents for counter value i: i_2 (one byte),
Label = "rxkad" with its NUL, L_2 = 64 as a big-endian 4-byte integer. -/
def kdf_data (i : Nat) : List Nat :=
  [i % 256, 0x72, 0x78, 0x6b, 0x61, 0x64, 0x00, 0, 0, 0, 64]

/-- The fatal error conditions of the pipeline (each is an exit(1) with a
distinct diagnostic in the C program). -/
inductive DeriveError where
  | invalid_key_length
  | unsupported
  | deprecated_enctype
  | key_too_short
  | crypto_failure
  | kdf_exhausted
deriving DecidableEq, Repr

/-- The loop of key_derivation_function from counter value i upward:
compute HMAC(key, kdf_data i), fail if the digest is shorter than a DES
block, otherwise overlay DES odd parity on the first 8 digest bytes and
accept the result unless it is a weak key; exhausting the counters
(the C loop stops once i exceeds 255) is the fatal no-strong-key case.
The final argument is the number of counter values still to try
(256 - i), making the recursion structural. -/
def kdfLoop (hmac : List Nat → List Nat → List Nat) (key : List Nat)
    (i : Nat) : Nat → Except DeriveError (List Nat)
  | 0 => .error .kdf_exhausted
  | fuel + 1 =>
      let digest := hmac key (kdf_data i)
      if digest.length < 8 then
        .error .crypto_failure
      else
        let cand := DES_set_odd_parity (digest.take 8)
        if DES_is_weak_key cand then kdfLoop hmac key (i + 1) fuel else .ok cand

/-- key_derivation_function: run the KDF loop with the counter starting
at 1 (aklog-kafs.c line 149), so 255 counter values 1..255 remain. -/
def key_derivation_function (hmac : List Nat → List Nat → List Nat)
    (key : List Nat) : Except DeriveError (List Nat) :=
  kdfLoop hmac key 1 255

/-! ### Enctype classification (the switch of derive_key, lines 184-208)

The switch dispatches on the enctype to one of the goto labels; the
default arm first checks the key length, then the sign of the enctype.
Numeric enctype values are those of the Kerberos enctype registry used by
the krb5 headers: NULL 0, DES_CBC_CRC 1, DES_CBC_MD4 2, DES_CBC_MD5 3,
DES_CBC_RAW 4, DES3_CBC_SHA 5, DES3_CBC_RAW 6, (des3-cbc-sha1) 7,
DES_HMAC_SHA1 8, DSA_SHA1_CMS 9, MD5_RSA_CMS 10, SHA1_RSA_CMS 11,
RC2_CBC_ENV 12, RSA_ENV 13, RSA_ES_OAEP_ENV 14, DES3_CBC_ENV 15,
DES3_CBC_SHA1 16. -/

inductive RejectReason where
  | unsupported
  | deprecated_enctype
  | key_too_short
deriving DecidableEq, Repr

inductive Classification where
  | copy
  | unweave
  | derive_direct
  | reject (r : RejectReason)
deriving DecidableEq, Repr

/-- The decision table of derive_key: which goto label the switch (and
the default arm's checks) select for a given enctype and key length. -/
def classify (enctype : Int) (len : Nat) : Classification :=
  if enctype = 0 then .reject .unsupported
  else if enctype = 1 ∨ enctype = 2 ∨ enctype = 3 then .copy
  else if enctype = 4 ∨ enctype = 6 ∨ enctype = 8 then .reject .deprecated_enctype
  else if enctype = 5 ∨ enctype = 7 ∨ enctype = 16 then .unweave
  else if enctype = 9 ∨ enctype = 10 ∨ enctype = 11 ∨ enctype = 12 ∨
          enctype = 13 ∨ enctype = 14 ∨ enctype = 15 then .reject .unsupported
  else if len < 7 then .reject .key_too_short
  else if enctype < 0 then .reject .unsupported
  else .derive_direct

/-- The krb5 key block: the enctype tag and the key bytes.  The C
keyblock carries contents and a length field that always equals the
number of live key bytes; the list models exactly those live bytes. -/
structure KeyBlock where
  enctype : Int
  contents : List Nat
deriving DecidableEq, Repr

/-- derive_key (aklog-kafs.c lines 180-248).  Returns the key block as
left behind by the call (the des3 path overwrites it in place with the
unweaved string and shrinks its length) together with the 8-byte session
key, or the fatal error.  The length tests are written as in C:
length != 8 on the copy path, length & 7 on the des3 path. -/
def derive_key (hmac : List Nat → List Nat → List Nat) (kb : KeyBlock) :
    Except DeriveError (KeyBlock × List Nat) :=
  match classify kb.enctype kb.contents.length with
  | .reject .unsupported => .error .unsupported
  | .reject .deprecated_enctype => .error .deprecated_enctype
  | .reject .key_too_short => .error .key_too_short
  | .copy =>
      if kb.contents.length ≠ 8 then .error .invalid_key_length
      else .ok (kb, kb.contents)
  | .unweave =>
      if kb.contents.length &&& 7 ≠ 0 then .error .invalid_key_length
      else
        match key_derivation_function hmac (des3_key_to_random kb.contents) with
        | .ok sk => .ok ({ kb with contents := des3_key_to_random kb.contents }, sk)
        | .error e => .error e
  | .derive_direct =>
      match key_derivation_function hmac kb.contents with
      | .ok sk => .ok (kb, sk)
      | .error e => .error e

/-! ### Payload encoding (struct rxrpc_key_sec2_v1 and main, lines 36-44
and 307-327)

The struct layout is fully packed on any ABI the program targets:
kver at 0 (u32), security_index at 4 (u16), ticket_length at 6 (u16),
expiry at 8 (u32), kvno at 12 (u32), session_key at 16 (8 bytes), ticket
at 24 (flexible array), so sizeof = 24.  Field assignments truncate to
the declared field width as in C. -/

structure RxrpcKeySec2V1 where
  kver : Nat
  security_index : Nat
  ticket_length : Nat
  expiry : Nat
  kvno : Nat
  session_key : List Nat
  ticket : List Nat
deriving DecidableEq, Repr

/-- sizeof(struct rxrpc_key_sec2_v1): the fixed header size. -/
def rxrpc_header_size : Nat := 24

/-- The header fields and ticket copy as filled in by main (lines
317-325): kver 1, security_index 2, ticket_length and expiry truncated
to their u16 / u32 fields, kvno = RXKAD_TKT_TYPE_KERBEROS_V5 = 256,
and a verbatim copy of the ticket bytes. -/
def encode_payload (expiry : Nat) (sk : List Nat) (ticket : List Nat) :
    RxrpcKeySec2V1 :=
  { kver := 1
    security_index := 2
    ticket_length := ticket.length % 2 ^ 16
    expiry := expiry % 2 ^ 32
    kvno := 256
    session_key := sk
    ticket := ticket }

/-- plen = sizeof(*payload) + creds->ticket.length (line 307): the byte
count handed to add_key. -/
def payload_length (ticket : List Nat) : Nat :=
  rxrpc_header_size + ticket.length

/-- The credential fields main reads: the key block, the ticket bytes
and the end time. -/
structure Creds where
  keyblock : KeyBlock
  ticket : List Nat
  endtime : Nat

/-- The derivation-and-store tail of main (lines 307-334): derive_key is
called before add_key; every error path exits with status 1 before
anything reaches the key store, and on success the encoded payload of
length plen is handed to add_key and the process exits 0.  The result is
the exit status together with what (if anything) was handed to the
key-store sink. -/
def run_main (hmac : List Nat → List Nat → List Nat) (creds : Creds) :
    Nat × Option (RxrpcKeySec2V1 × Nat) :=
  match derive_key hmac creds.keyblock with
  | .error _ => (1, none)
  | .ok (_, sk) =>
      (0, some (encode_payload creds.endtime sk creds.ticket,
                payload_length creds.ticket))

/-! ### The in-place unweave (pointer-level model)

In derive_key the call des3_key_to_random(contents, contents, length)
aliases output and input.  Here the buffer is one list and the random /
key pointers are explicit offsets r and k; reads and writes happen in
exactly the order of the C code (the reservoir byte at k+7 is read
first, then for each i the byte at k+i is read from the current buffer
and the result written at r+i). -/

def stripInPlaceLoop (lsbs : Nat) (buf : List Nat) (r k i : Nat) :
    Nat → List Nat
  | 0 => buf
  | fuel + 1 =>
      stripInPlaceLoop (lsbs >>> 1)
        (buf.set (r + i) (((buf.getD (k + i) 0) &&& 0xfe) ||| (lsbs &&& 1)))
        r k (i + 1) fuel

/-- des3_strip_parity_bits with both pointers into the same buffer. -/
def des3_strip_parity_bits_inplace (buf : List Nat) (r k : Nat) : List Nat :=
  stripInPlaceLoop ((buf.getD (k + 7) 0) >>> 1) buf r k 0 7

/-- The while loop of des3_key_to_random with both pointers into the same
buffer: returns the final buffer and the accumulated new_len.  The fuel
argument bounds the iteration count (each round consumes 8 of len). -/
def inplaceLoop : Nat → List Nat → Nat → Nat → Nat → List Nat × Nat
  | 0, buf, _, _, _ => (buf, 0)
  | fuel + 1, buf, r, k, len =>
      if 8 < len then
        let res := inplaceLoop fuel (des3_strip_parity_bits_inplace buf r k)
          (r + 7) (k + 8) (len - 8)
        (res.1, res.2 + 7)
      else
        (buf, 0)

/-- des3_key_to_random with output aliased to input at offsets r and k. -/
def key_to_random_inplace (buf : List Nat) (r k len : Nat) :
    List Nat × Nat :=
  inplaceLoop len buf r k len

/-! ### Functional description of the KDF used for the refinement claim:
the first counter in 1..255 whose parity-overlaid candidate is not weak
is the one the loop accepts. -/

/-- The candidate DES key the KDF builds for counter value i. -/
def kdf_candidate (hmac : List Nat → List Nat → List Nat) (key : List Nat)
    (i : Nat) : List Nat :=
  DES_set_odd_parity ((hmac key (kdf_data i)).take 8)

/-- First-fit description of the KDF result: find the first counter in
1..255 whose candidate is not a weak key. -/
def kdf_spec (hmac : List Nat → List Nat → List Nat) (key : List Nat) :
    Except DeriveError (List Nat) :=
  match (List.range' 1 255).find? (fun i => ! DES_is_weak_key (kdf_candidate hmac key i)) with
  | some i => .ok (kdf_candidate hmac key i)
  | none => .error .kdf_exhausted

/-- A concrete stand-in HMAC collaborator used by witnesses: it returns a
16-byte digest (the 11 message bytes followed by five zero bytes), the
length HMAC-MD5 always returns. -/
def hmacC : List Nat → List Nat → List Nat :=
  fun _ data => data ++ [0, 0, 0, 0, 0]

end Aklog

deriving instance DecidableEq for Except

namespace Aklog

/-! ### Helper lemmas: parity bytes -/

theorem and254_eq_mod (b : Nat) : b &&& 254 = b % 256 &&& 254 := by
  have h1 : (255 &&& 254 : Nat) = 254 := by decide
  have h2 : b &&& 255 = b % 256 := by
    have h := Nat.and_pow_two_sub_one_eq_mod b 8
    norm_num at h
    exact h
  conv_rhs => rw [← h2]
  rw [Nat.and_assoc, h1]

theorem DES_set_odd_parity_byte_mod (b : Nat) :
    DES_set_odd_parity_byte b = DES_set_odd_parity_byte (b % 256) := by
  unfold DES_set_odd_parity_byte
  rw [show (0xfe : Nat) = 254 from rfl, and254_eq_mod b]

theorem byteParity_set_odd (b : Nat) :
    byteParity (DES_set_odd_parity_byte b) = true := by
  rw [DES_set_odd_parity_byte_mod]
  have h : ∀ c, c < 256 → byteParity (DES_set_odd_parity_byte c) = true := by decide
  exact h _ (Nat.mod_lt _ (by norm_num))

theorem mem_DES_set_odd_parity {b : Nat} {k : List Nat}
    (hb : b ∈ DES_set_odd_parity k) : byteParity b = true := by
  unfold DES_set_odd_parity at hb
  obtain ⟨a, -, rfl⟩ := List.mem_map.1 hb
  exact byteParity_set_odd a

theorem length_DES_set_odd_parity (k : List Nat) :
    (DES_set_odd_parity k).length = k.length := by
  simp [DES_set_odd_parity]

/-! ### Helper lemmas: the parity-strip loop -/

theorem stripLoop_length (fuel : Nat) :
    ∀ k lsbs i, (stripLoop k lsbs i fuel).length = fuel := by
  induction fuel with
  | zero => intro k lsbs i; rfl
  | succ n ih => intro k lsbs i; simp [stripLoop, ih]

theorem stripLoop_getD (fuel : Nat) :
    ∀ k lsbs i j, j < fuel →
      (stripLoop k lsbs i fuel).getD j 0 =
        ((k.getD (i + j) 0) &&& 0xfe) ||| ((lsbs >>> j) &&& 1) := by
  induction fuel with
  | zero => intro k lsbs i j hj; omega
  | succ n ih =>
      intro k lsbs i j hj
      match j with
      | 0 => simp [stripLoop]
      | j + 1 =>
          have h := ih k (lsbs >>> 1) (i + 1) j (by omega)
          simp only [stripLoop, List.getD_cons_succ]
          rw [h, ← Nat.shiftRight_add]
          have : i + 1 + j = i + (j + 1) := by omega
          rw [this, Nat.add_comm 1 j]

theorem des3_strip_parity_bits_length (k : List Nat) :
    (des3_strip_parity_bits k).length = 7 :=
  stripLoop_length 7 k _ 0

theorem des3_strip_parity_bits_getD (k : List Nat) (j : Nat) (hj : j < 7) :
    (des3_strip_parity_bits k).getD j 0 =
      ((k.getD j 0) &&& 0xfe) ||| ((((k.getD 7 0) >>> 1) >>> j) &&& 1) := by
  unfold des3_strip_parity_bits
  have h := stripLoop_getD 7 k ((k.getD 7 0) >>> 1) 0 j hj
  simpa using h

/-! ### Helper lemmas: the unweave loop -/

theorem unweaveLoop_congr (fuel₁ : Nat) :
    ∀ fuel₂ key, key.length ≤ fuel₁ → List.length key ≤ fuel₂ →
      unweaveLoop fuel₁ key = unweaveLoop fuel₂ key := by
  induction fuel₁ with
  | zero =>
      intro fuel₂ key h1 h2
      have hk : key.length = 0 := by omega
      match fuel₂ with
      | 0 => rfl
      | m + 1 => simp [unweaveLoop, hk]
  | succ n ih =>
      intro fuel₂ key h1 h2
      match fuel₂ with
      | 0 =>
          have hk : key.length = 0 := by omega
          simp [unweaveLoop, hk]
      | m + 1 =>
          simp only [unweaveLoop]
          by_cases hlen : 8 < key.length
          · rw [if_pos hlen, if_pos hlen,
              ih m (key.drop 8) (by simp [List.length_drop]; omega)
                (by simp [List.length_drop]; omega)]
          · rw [if_neg hlen, if_neg hlen]

theorem des3_key_to_random_eq (key : List Nat) :
    des3_key_to_random key =
      if 8 < key.length then
        des3_strip_parity_bits key ++ des3_key_to_random (key.drop 8)
      else
        [] := by
  unfold des3_key_to_random
  by_cases hlen : 8 < key.length
  · rw [if_pos hlen]
    match hk : key.length with
    | 0 => omega
    | n + 1 =>
        simp only [unweaveLoop, hk, if_pos (hk ▸ hlen)]
        rw [unweaveLoop_congr n (key.drop 8).length (key.drop 8)
          (by simp [List.length_drop]; omega) (le_refl _)]
  · rw [if_neg hlen]
    match hk : key.length with
    | 0 => rfl
    | n + 1 => simp only [unweaveLoop, hk, if_neg (hk ▸ hlen)]

theorem des3_key_to_random_length_le (fuel : Nat) :
    ∀ key, key.length ≤ fuel → (des3_key_to_random key).length ≤ key.length := by
  induction fuel with
  | zero =>
      intro key h
      rw [des3_key_to_random_eq, if_neg (by omega)]
      simp
  | succ n ih =>
      intro key h
      rw [des3_key_to_random_eq]
      by_cases hlen : 8 < key.length
      · rw [if_pos hlen]
        have hd := ih (key.drop 8) (by simp [List.length_drop]; omega)
        simp only [List.length_append, des3_strip_parity_bits_length,
          List.length_drop] at hd ⊢
        omega
      · rw [if_neg hlen]; simp

/-! ### Helper lemmas: the KDF loop -/

theorem kdfLoop_ok_props (hmac : List Nat → List Nat → List Nat)
    (key : List Nat) :
    ∀ fuel i sk, kdfLoop hmac key i fuel = .ok sk →
      sk.length = 8 ∧ (∀ b ∈ sk, byteParity b = true) ∧
        DES_is_weak_key sk = false := by
  intro fuel
  induction fuel with
  | zero => intro i sk h; exact absurd h (by simp [kdfLoop])
  | succ n ih =>
      intro i sk h
      simp only [kdfLoop] at h
      by_cases hlen : (hmac key (kdf_data i)).length < 8
      · rw [if_pos hlen] at h; exact absurd h (by simp)
      · rw [if_neg hlen] at h
        by_cases hweak :
            DES_is_weak_key (DES_set_odd_parity ((hmac key (kdf_data i)).take 8)) = true
        · rw [if_pos hweak] at h
          exact ih (i + 1) sk h
        · rw [if_neg hweak] at h
          injection h with h'
          subst h'
          refine ⟨?_, fun b hb => mem_DES_set_odd_parity hb, by simpa using hweak⟩
          rw [length_DES_set_odd_parity, List.length_take]
          omega

theorem kdfLoop_find (hmac : List Nat → List Nat → List Nat)
    (key : List Nat) :
    ∀ fuel i, (∀ j, i ≤ j → j < i + fuel → 8 ≤ (hmac key (kdf_data j)).length) →
      kdfLoop hmac key i fuel =
        match (List.range' i fuel).find?
            (fun j => ! DES_is_weak_key (kdf_candidate hmac key j)) with
        | some j => .ok (kdf_candidate hmac key j)
        | none => .error .kdf_exhausted := by
  intro fuel
  induction fuel with
  | zero => intro i h; simp [kdfLoop]
  | succ n ih =>
      intro i h
      have hlen : ¬ (hmac key (kdf_data i)).length < 8 := by
        have := h i (le_refl i) (by omega); omega
      simp only [kdfLoop, if_neg hlen]
      rw [List.range'_succ]
      by_cases hweak :
          DES_is_weak_key (DES_set_odd_parity ((hmac key (kdf_data i)).take 8)) = true
      · rw [if_pos hweak,
          List.find?_cons_of_neg _ (by simp [kdf_candidate, hweak])]
        exact ih (i + 1) (fun j hj1 hj2 => h j (by omega) (by omega))
      · rw [if_neg hweak,
          List.find?_cons_of_pos _ (by simp [kdf_candidate, hweak])]
        simp [kdf_candidate]

/-! ### Claim C1 -/

/-- C1 (refuted; code bug): the spec says an input of 8n bytes unweaves to
7n bytes, the concatenation of the parity-stripped blocks.  The loop of
des3_key_to_random runs only while len is strictly greater than 8, so the
final 8-byte block is never processed: a 24-byte (n = 3) Triple-DES key
yields 14 bytes, not 21, contradicting the function's own comment that it
concatenates three 56-bit strings into a 168-bit random string. -/
theorem c1_unweave_length_bug :
    (des3_key_to_random (List.replicate 24 0)).length = 14 ∧ 14 ≠ 7 * (24 / 8) := by
  constructor
  · decide
  · decide

/-! ### Claim C9 -/

/-- C9 (confirmed): for every 8-byte input k the Parity Stripper outputs
exactly 7 bytes, and output byte i equals (k[i] with its low bit cleared)
OR bit i of the reservoir k[7] >> 1. -/
theorem c9_parity_stripper (k : List Nat) (_hk : k.length = 8) :
    (des3_strip_parity_bits k).length = 7 ∧
    ∀ i, i < 7 →
      (des3_strip_parity_bits k).getD i 0 =
        ((k.getD i 0) &&& 0xfe) ||| ((((k.getD 7 0) >>> 1) >>> i) &&& 1) :=
  ⟨des3_strip_parity_bits_length k, fun i hi => des3_strip_parity_bits_getD k i hi⟩

/-- C9 witness: the theorem applied to the concrete 8-byte block
[1, 2, 3, 4, 5, 6, 7, 0xAB]. -/
theorem c9_witness :
    ([1, 2, 3, 4, 5, 6, 7, 171] : List Nat).length = 8 ∧
    ((des3_strip_parity_bits [1, 2, 3, 4, 5, 6, 7, 171]).length = 7 ∧
     ∀ i, i < 7 →
       (des3_strip_parity_bits [1, 2, 3, 4, 5, 6, 7, 171]).getD i 0 =
         ((([1, 2, 3, 4, 5, 6, 7, 171] : List Nat).getD i 0) &&& 0xfe) |||
           (((([1, 2, 3, 4, 5, 6, 7, 171] : List Nat).getD 7 0) >>> 1) >>> i) &&& 1) :=
  ⟨by decide, c9_parity_stripper [1, 2, 3, 4, 5, 6, 7, 171] (by decide)⟩

/-! ### Claim C2 -/

/-- C2 (confirmed): provided the HMAC primitive returns at least 8 digest
bytes (HMAC-MD5 returns 16), the KDF equals its first-fit description:
the first counter i in 1..255 whose candidate — odd parity overlaid on
the first 8 bytes of HMAC(key, the 11-byte string kdf_data i, namely the
1-byte counter, the 6-byte label including its NUL, and the 4-byte
big-endian constant 64) — is not a DES weak or semi-weak key gives the
session key, and if every counter yields a weak candidate the result is
the fatal kdf_exhausted error. -/
theorem c2_kdf_first_fit (hmac : List Nat → List Nat → List Nat)
    (key : List Nat)
    (h : ∀ j, 1 ≤ j → j ≤ 255 → 8 ≤ (hmac key (kdf_data j)).length) :
    key_derivation_function hmac key = kdf_spec hmac key := by
  unfold key_derivation_function kdf_spec
  exact kdfLoop_find hmac key 255 1 (fun j h1 h2 => h j h1 (by omega))

/-- C2 witness: the theorem applied to the concrete 16-byte-digest HMAC
stand-in and the empty HMAC key. -/
theorem c2_witness :
    key_derivation_function hmacC [] = kdf_spec hmacC [] :=
  c2_kdf_first_fit hmacC [] (fun j _ _ => by simp [hmacC, kdf_data])

/-! ### Helper lemma: case analysis of a successful derive_key -/

theorem derive_key_ok_cases (hmac : List Nat → List Nat → List Nat)
    (kb kb' : KeyBlock) (sk : List Nat)
    (hok : derive_key hmac kb = .ok (kb', sk)) :
    (classify kb.enctype kb.contents.length = .copy ∧
      kb.contents.length = 8 ∧ kb' = kb ∧ sk = kb.contents) ∨
    (classify kb.enctype kb.contents.length = .unweave ∧
      kb.contents.length &&& 7 = 0 ∧
      kb' = { kb with contents := des3_key_to_random kb.contents } ∧
      key_derivation_function hmac (des3_key_to_random kb.contents) = .ok sk) ∨
    (classify kb.enctype kb.contents.length = .derive_direct ∧ kb' = kb ∧
      key_derivation_function hmac kb.contents = .ok sk) := by
  unfold derive_key at hok
  split at hok
  · exact absurd hok (by simp)
  · exact absurd hok (by simp)
  · exact absurd hok (by simp)
  · rename_i hcl
    split at hok
    · exact absurd hok (by simp)
    · rename_i h8
      simp only [Except.ok.injEq, Prod.mk.injEq] at hok
      obtain ⟨rfl, rfl⟩ := hok
      exact Or.inl ⟨hcl, by omega, rfl, rfl⟩
  · rename_i hcl
    split at hok
    · exact absurd hok (by simp)
    · rename_i hmod
      split at hok
      · rename_i sk2 hkdf
        simp only [Except.ok.injEq, Prod.mk.injEq] at hok
        obtain ⟨rfl, rfl⟩ := hok
        exact Or.inr (Or.inl ⟨hcl, by omega, rfl, hkdf⟩)
      · exact absurd hok (by simp)
  · rename_i hcl
    split at hok
    · rename_i sk2 hkdf
      simp only [Except.ok.injEq, Prod.mk.injEq] at hok
      obtain ⟨rfl, rfl⟩ := hok
      exact Or.inr (Or.inr ⟨hcl, rfl, hkdf⟩)
    · exact absurd hok (by simp)

/-! ### Claim C3 -/

/-- C3 counterexample: the claim is false on the Copy path.  For the
single-DES enctype 1 with an all-zero 8-byte key block, derive_key
succeeds and returns the key block verbatim as the session key, and the
byte 0 has even bit-parity (and the claim's parity invariant fails). -/
theorem c3_counterexample :
    derive_key hmacC ⟨1, List.replicate 8 0⟩ =
      .ok (⟨1, List.replicate 8 0⟩, List.replicate 8 0) ∧
    (0 : Nat) ∈ List.replicate 8 0 ∧ byteParity 0 = false := by
  refine ⟨by decide, by decide, by decide⟩

/-- C3 (corrected): on the Unweave-then-derive and DeriveDirect paths —
the paths that run the KDF — every session key derive_key produces has
exactly 8 bytes, odd bit-parity in each byte, and is not a member of the
DES weak/semi-weak key set.  (On the Copy path the key block bytes are
returned verbatim, with no such guarantee.) -/
theorem c3_kdf_key_invariant (hmac : List Nat → List Nat → List Nat)
    (kb kb' : KeyBlock) (sk : List Nat)
    (hpath : classify kb.enctype kb.contents.length = .unweave ∨
             classify kb.enctype kb.contents.length = .derive_direct)
    (hok : derive_key hmac kb = .ok (kb', sk)) :
    sk.length = 8 ∧ (∀ b ∈ sk, byteParity b = true) ∧
      DES_is_weak_key sk = false := by
  unfold derive_key at hok
  rcases hpath with h | h
  · simp only [h] at hok
    by_cases hmod : kb.contents.length &&& 7 ≠ 0
    · rw [if_pos hmod] at hok; exact absurd hok (by simp)
    · rw [if_neg hmod] at hok
      cases hkdf : key_derivation_function hmac (des3_key_to_random kb.contents) with
      | ok sk2 =>
          rw [hkdf] at hok
          simp only [Except.ok.injEq, Prod.mk.injEq] at hok
          obtain ⟨-, rfl⟩ := hok
          exact kdfLoop_ok_props hmac _ 255 1 sk2 hkdf
      | error e => rw [hkdf] at hok; exact absurd hok (by simp)
  · simp only [h] at hok
    cases hkdf : key_derivation_function hmac kb.contents with
    | ok sk2 =>
        rw [hkdf] at hok
        simp only [Except.ok.injEq, Prod.mk.injEq] at hok
        obtain ⟨-, rfl⟩ := hok
        exact kdfLoop_ok_props hmac _ 255 1 sk2 hkdf
    | error e => rw [hkdf] at hok; exact absurd hok (by simp)

/-- C3 witness: the theorem applied to the Unweave path, enctype 16 with
a 16-byte key block of ones, under the concrete HMAC stand-in. -/
theorem c3_witness :
    ([1, 115, 121, 107, 97, 100, 1, 1] : List Nat).length = 8 ∧
    (∀ b ∈ ([1, 115, 121, 107, 97, 100, 1, 1] : List Nat), byteParity b = true) ∧
    DES_is_weak_key [1, 115, 121, 107, 97, 100, 1, 1] = false :=
  c3_kdf_key_invariant hmacC ⟨16, List.replicate 16 1⟩ ⟨16, List.replicate 7 0⟩
    [1, 115, 121, 107, 97, 100, 1, 1] (Or.inl (by decide)) (by decide)

/-! ### Claim C5 -/

/-- C5 counterexample: the claim says a negative out-of-table enctype is
always rejected as Unsupported, but the default arm of the switch checks
the key length first: enctype -1 with a 6-byte key is rejected as
key_too_short, not as unsupported. -/
theorem c5_counterexample :
    classify (-1) 6 = .reject .key_too_short ∧
    classify (-1) 6 ≠ .reject .unsupported := by
  refine ⟨by decide, by decide⟩

/-- C5 (corrected): for enctype identifiers outside the enumerated table
the default arm checks the key length first: key length below 7 is
rejected as key_too_short regardless of sign; with key length at least 7
a negative identifier is rejected as unsupported and a non-negative one
classifies as derive_direct. -/
theorem c5_default_arm (e : Int) (len : Nat) (he : e < 0 ∨ 16 < e) :
    (len < 7 → classify e len = .reject .key_too_short) ∧
    (7 ≤ len → e < 0 → classify e len = .reject .unsupported) ∧
    (7 ≤ len → 0 ≤ e → classify e len = .derive_direct) := by
  have h0 : ¬ e = 0 := by omega
  have h1 : ¬ (e = 1 ∨ e = 2 ∨ e = 3) := by omega
  have h2 : ¬ (e = 4 ∨ e = 6 ∨ e = 8) := by omega
  have h3 : ¬ (e = 5 ∨ e = 7 ∨ e = 16) := by omega
  have h4 : ¬ (e = 9 ∨ e = 10 ∨ e = 11 ∨ e = 12 ∨ e = 13 ∨ e = 14 ∨ e = 15) := by
    omega
  refine ⟨?_, ?_, ?_⟩
  · intro hlen
    unfold classify
    rw [if_neg h0, if_neg h1, if_neg h2, if_neg h3, if_neg h4, if_pos hlen]
  · intro hlen hneg
    unfold classify
    rw [if_neg h0, if_neg h1, if_neg h2, if_neg h3, if_neg h4,
      if_neg (by omega), if_pos hneg]
  · intro hlen hpos
    unfold classify
    rw [if_neg h0, if_neg h1, if_neg h2, if_neg h3, if_neg h4,
      if_neg (by omega), if_neg (by omega)]

/-- C5 witness: the theorem applied to the out-of-table enctype 99 with a
5-byte key (the spec's own rejection scenario). -/
theorem c5_witness :
    (5 < 7 → classify 99 5 = .reject .key_too_short) ∧
    (7 ≤ 5 → (99 : Int) < 0 → classify 99 5 = .reject .unsupported) ∧
    (7 ≤ 5 → (0 : Int) ≤ 99 → classify 99 5 = .derive_direct) :=
  c5_default_arm 99 5 (by omega)

/-! ### Claim C6 -/

/-- C6 (confirmed): for the single-DES enctypes 1 (CRC), 2 (MD4) and
3 (MD5), derive_key copies the key block verbatim into the session key
when the key block is exactly 8 bytes, and fails with invalid_key_length
for any other key block length, producing no session key. -/
theorem c6_single_des_copy (hmac : List Nat → List Nat → List Nat)
    (kb : KeyBlock)
    (he : kb.enctype = 1 ∨ kb.enctype = 2 ∨ kb.enctype = 3) :
    (kb.contents.length = 8 → derive_key hmac kb = .ok (kb, kb.contents)) ∧
    (kb.contents.length ≠ 8 →
      derive_key hmac kb = .error .invalid_key_length) := by
  have hcl : classify kb.enctype kb.contents.length = .copy := by
    unfold classify
    rw [if_neg (by omega), if_pos he]
  unfold derive_key
  rw [hcl]
  constructor
  · intro h8
    simp [h8]
  · intro h8
    simp only [if_pos h8]

/-- C6 witness: the theorem applied to enctype 1 with an 8-byte key
block. -/
theorem c6_witness :
    ((List.replicate 8 0 : List Nat).length = 8 →
      derive_key hmacC ⟨1, List.replicate 8 0⟩ =
        .ok (⟨1, List.replicate 8 0⟩, List.replicate 8 0)) ∧
    ((List.replicate 8 0 : List Nat).length ≠ 8 →
      derive_key hmacC ⟨1, List.replicate 8 0⟩ = .error .invalid_key_length) :=
  c6_single_des_copy hmacC ⟨1, List.replicate 8 0⟩ (Or.inl rfl)

/-! ### Claim C4 -/

/-- C4 counterexample: the ticket_length header field is a 16-bit field,
so for a ticket of 65536 bytes the stored field is 0, not the actual
blob length: the claim's "ticket_length field equal to N" fails at
N = 65536. -/
theorem c4_counterexample :
    (encode_payload 0 (List.replicate 8 1) (List.replicate 65536 2)).ticket_length ≠
      (List.replicate 65536 2).length := by
  simp only [encode_payload, List.length_replicate]
  norm_num

/-- C4 (corrected): the Payload Encoder produces a record whose header
fields are exactly kver = 1, security_index = 2, kvno = 256, the given
expiry (any value representable in its 32-bit field), the given session
key, and a ticket_length field equal to N mod 2^16 — equal to N whenever
N is below 2^16 — followed by a verbatim copy of the N ticket bytes; the
total length handed to the key-store sink is header size (24) + N. -/
theorem c4_payload_encoder (expiry : Nat) (sk t : List Nat)
    (hexp : expiry < 2 ^ 32) :
    (encode_payload expiry sk t).kver = 1 ∧
    (encode_payload expiry sk t).security_index = 2 ∧
    (encode_payload expiry sk t).kvno = 256 ∧
    (encode_payload expiry sk t).expiry = expiry ∧
    (encode_payload expiry sk t).session_key = sk ∧
    (encode_payload expiry sk t).ticket_length = t.length % 2 ^ 16 ∧
    (t.length < 2 ^ 16 → (encode_payload expiry sk t).ticket_length = t.length) ∧
    (encode_payload expiry sk t).ticket = t ∧
    payload_length t = rxrpc_header_size + t.length := by
  refine ⟨rfl, rfl, rfl, ?_, rfl, rfl, ?_, rfl, rfl⟩
  · exact Nat.mod_eq_of_lt hexp
  · intro hN; exact Nat.mod_eq_of_lt hN

/-- C4 witness: the theorem applied to the spec's record-layout test
vector expiry 1700000000 with a 3-byte ticket. -/
theorem c4_witness :
    (encode_payload 1700000000 (List.replicate 8 1) [10, 20, 30]).kver = 1 ∧
    (encode_payload 1700000000 (List.replicate 8 1) [10, 20, 30]).security_index = 2 ∧
    (encode_payload 1700000000 (List.replicate 8 1) [10, 20, 30]).kvno = 256 ∧
    (encode_payload 1700000000 (List.replicate 8 1) [10, 20, 30]).expiry = 1700000000 ∧
    (encode_payload 1700000000 (List.replicate 8 1) [10, 20, 30]).session_key =
      List.replicate 8 1 ∧
    (encode_payload 1700000000 (List.replicate 8 1) [10, 20, 30]).ticket_length =
      ([10, 20, 30] : List Nat).length % 2 ^ 16 ∧
    (([10, 20, 30] : List Nat).length < 2 ^ 16 →
      (encode_payload 1700000000 (List.replicate 8 1) [10, 20, 30]).ticket_length =
        ([10, 20, 30] : List Nat).length) ∧
    (encode_payload 1700000000 (List.replicate 8 1) [10, 20, 30]).ticket =
      [10, 20, 30] ∧
    payload_length [10, 20, 30] = rxrpc_header_size + ([10, 20, 30] : List Nat).length :=
  c4_payload_encoder 1700000000 (List.replicate 8 1) [10, 20, 30] (by norm_num)

/-! ### Claim C7 -/

/-- C7 counterexample: the claim says derive_key leaves the key material
unchanged, but on the Triple-DES path it overwrites the key block with
the unweaved random string: enctype 16 with a 16-byte key block of ones
leaves a 7-byte all-zero key block behind. -/
theorem c7_counterexample :
    derive_key hmacC ⟨16, List.replicate 16 1⟩ =
      .ok (⟨16, List.replicate 7 0⟩, [1, 115, 121, 107, 97, 100, 1, 1]) ∧
    (List.replicate 7 0 : List Nat) ≠ List.replicate 16 1 := by
  refine ⟨by decide, by decide⟩

/-- C7 (corrected): derive_key leaves the key block unchanged on the
Copy and DeriveDirect paths, and never changes the enctype tag; but on
the Unweave path it replaces the key block contents (and hence the
recorded length) with the unweaved random string computed by
des3_key_to_random before running the KDF. -/
theorem c7_key_material_frame (hmac : List Nat → List Nat → List Nat)
    (kb kb' : KeyBlock) (sk : List Nat)
    (hok : derive_key hmac kb = .ok (kb', sk)) :
    kb'.enctype = kb.enctype ∧
    ((classify kb.enctype kb.contents.length = .copy ∨
      classify kb.enctype kb.contents.length = .derive_direct) → kb' = kb) ∧
    (classify kb.enctype kb.contents.length = .unweave →
      kb'.contents = des3_key_to_random kb.contents) := by
  rcases derive_key_ok_cases hmac kb kb' sk hok with
    ⟨hcl, -, rfl, -⟩ | ⟨hcl, -, rfl, -⟩ | ⟨hcl, rfl, -⟩
  · exact ⟨rfl, fun _ => rfl,
      fun h => by rw [hcl] at h; exact Classification.noConfusion h⟩
  · refine ⟨rfl, fun hcp => ?_, fun _ => rfl⟩
    rcases hcp with h | h <;>
      (rw [hcl] at h; exact Classification.noConfusion h)
  · exact ⟨rfl, fun _ => rfl,
      fun h => by rw [hcl] at h; exact Classification.noConfusion h⟩

/-- C7 witness: the theorem applied to the Copy path, enctype 1 with an
8-byte all-zero key block. -/
theorem c7_witness :
    (⟨1, List.replicate 8 0⟩ : KeyBlock).enctype =
      (⟨1, List.replicate 8 0⟩ : KeyBlock).enctype ∧
    ((classify 1 (List.replicate 8 0 : List Nat).length = .copy ∨
      classify 1 (List.replicate 8 0 : List Nat).length = .derive_direct) →
      (⟨1, List.replicate 8 0⟩ : KeyBlock) = ⟨1, List.replicate 8 0⟩) ∧
    (classify 1 (List.replicate 8 0 : List Nat).length = .unweave →
      (⟨1, List.replicate 8 0⟩ : KeyBlock).contents =
        des3_key_to_random (List.replicate 8 0)) :=
  c7_key_material_frame hmacC ⟨1, List.replicate 8 0⟩ ⟨1, List.replicate 8 0⟩
    (List.replicate 8 0) (by decide)

/-! ### Claim C8 -/

/-- C8 (confirmed): whenever key derivation fails with any of the fatal
errors, the program exits with status 1 (non-zero) and nothing — partial
or otherwise — is handed to the key-store sink. -/
theorem c8_no_partial_payload (hmac : List Nat → List Nat → List Nat)
    (creds : Creds) (e : DeriveError)
    (herr : derive_key hmac creds.keyblock = .error e) :
    run_main hmac creds = (1, none) ∧ (run_main hmac creds).1 ≠ 0 := by
  unfold run_main
  rw [herr]
  exact ⟨rfl, by simp⟩

/-- C8 witness: the theorem applied to a credential with the unsupported
enctype 0. -/
theorem c8_witness :
    run_main hmacC ⟨⟨0, [1, 2, 3]⟩, [9, 9], 5⟩ = (1, none) ∧
    (run_main hmacC ⟨⟨0, [1, 2, 3]⟩, [9, 9], 5⟩).1 ≠ 0 :=
  c8_no_partial_payload hmacC ⟨⟨0, [1, 2, 3]⟩, [9, 9], 5⟩ .unsupported (by decide)

/-! ### Helper lemmas: indexing (bridges between getD, set, append, drop) -/

theorem getD_set_ne (l : List Nat) (m n a : Nat) (h : m ≠ n) :
    (l.set m a).getD n 0 = l.getD n 0 := by
  simp [List.getD_eq_getElem?_getD, List.getElem?_set_ne h]

theorem getD_set_self (l : List Nat) (m a : Nat) (h : m < l.length) :
    (l.set m a).getD m 0 = a := by
  simp [List.getD_eq_getElem?_getD, List.getElem?_set_self h]

theorem getD_append_left (l₁ l₂ : List Nat) (n : Nat) (h : n < l₁.length) :
    (l₁ ++ l₂).getD n 0 = l₁.getD n 0 := by
  simp [List.getD_eq_getElem?_getD, List.getElem?_append_left h]

theorem getD_append_right (l₁ l₂ : List Nat) (n : Nat) (h : l₁.length ≤ n) :
    (l₁ ++ l₂).getD n 0 = l₂.getD (n - l₁.length) 0 := by
  simp [List.getD_eq_getElem?_getD, List.getElem?_append_right h]

theorem getD_drop (l : List Nat) (m i : Nat) :
    (l.drop m).getD i 0 = l.getD (m + i) 0 := by
  simp [List.getD_eq_getElem?_getD, List.getElem?_drop]

/-! ### Helper lemmas: the in-place strip block

Within one block the write cursor r stays at or below the read cursor k,
the reservoir byte at k+7 is read before any write, and the write at r+i
lands strictly below the read at k+i, so every read sees the original
buffer contents. -/

theorem stripInPlaceLoop_spec (fuel : Nat) :
    ∀ lsbs buf i r k, i + fuel = 7 → r ≤ k → k + 8 ≤ List.length buf →
      (stripInPlaceLoop lsbs buf r k i fuel).length = buf.length ∧
      (∀ p, p < r + i ∨ r + 7 ≤ p →
        (stripInPlaceLoop lsbs buf r k i fuel).getD p 0 = buf.getD p 0) ∧
      (∀ j, i ≤ j → j < 7 →
        (stripInPlaceLoop lsbs buf r k i fuel).getD (r + j) 0 =
          ((buf.getD (k + j) 0) &&& 0xfe) ||| ((lsbs >>> (j - i)) &&& 1)) := by
  induction fuel with
  | zero =>
      intro lsbs buf i r k hi hrk hlen
      exact ⟨rfl, fun p _ => rfl, fun j hj1 hj2 => by omega⟩
  | succ n ih =>
      intro lsbs buf i r k hi hrk hlen
      obtain ⟨ihlen, ihpres, ihval⟩ :=
        ih (lsbs >>> 1)
          (buf.set (r + i) (((buf.getD (k + i) 0) &&& 0xfe) ||| (lsbs &&& 1)))
          (i + 1) r k (by omega) hrk (by simpa using hlen)
      refine ⟨?_, ?_, ?_⟩
      · simp only [stripInPlaceLoop]
        rw [ihlen]; simp
      · intro p hp
        simp only [stripInPlaceLoop]
        rw [ihpres p (by omega)]
        exact getD_set_ne _ _ _ _ (by omega)
      · intro j hj1 hj2
        simp only [stripInPlaceLoop]
        rcases Nat.eq_or_lt_of_le hj1 with rfl | hj
        · rw [ihpres (r + i) (by omega), getD_set_self _ _ _ (by omega)]
          simp
        · rw [ihval j (by omega) hj2, getD_set_ne _ _ _ _ (by omega),
            ← Nat.shiftRight_add]
          have harith : 1 + (j - (i + 1)) = j - i := by omega
          rw [harith]

theorem strip_inplace_spec (buf : List Nat) (r k : Nat) (hrk : r ≤ k)
    (hlen : k + 8 ≤ buf.length) :
    (des3_strip_parity_bits_inplace buf r k).length = buf.length ∧
    (∀ p, p < r ∨ r + 7 ≤ p →
      (des3_strip_parity_bits_inplace buf r k).getD p 0 = buf.getD p 0) ∧
    (∀ j, j < 7 →
      (des3_strip_parity_bits_inplace buf r k).getD (r + j) 0 =
        ((buf.getD (k + j) 0) &&& 0xfe) |||
          ((((buf.getD (k + 7) 0) >>> 1) >>> j) &&& 1)) := by
  unfold des3_strip_parity_bits_inplace
  obtain ⟨h1, h2, h3⟩ :=
    stripInPlaceLoop_spec 7 ((buf.getD (k + 7) 0) >>> 1) buf 0 r k (by omega)
      hrk hlen
  refine ⟨h1, fun p hp => h2 p (by omega), fun j hj => ?_⟩
  have h := h3 j (Nat.zero_le j) hj
  simpa using h

/-! ### Helper lemma: the in-place unweave loop refines the functional
unweave

The invariant: provided the write cursor stays at or below the read
cursor and the remaining input (the len bytes of the buffer at offset k,
which agree with the reference list xs) fits in the buffer, the loop
leaves everything below r untouched and deposits exactly the functional
unweave of xs at offset r, returning its length. -/

theorem inplaceLoop_spec (fuel : Nat) :
    ∀ buf r k len xs, len ≤ fuel → r ≤ k → k + len ≤ List.length buf →
      xs.length = len → (∀ i, i < len → buf.getD (k + i) 0 = xs.getD i 0) →
      (inplaceLoop fuel buf r k len).1.length = buf.length ∧
      (inplaceLoop fuel buf r k len).2 = (des3_key_to_random xs).length ∧
      (∀ p, p < r → (inplaceLoop fuel buf r k len).1.getD p 0 = buf.getD p 0) ∧
      (∀ j, j < (inplaceLoop fuel buf r k len).2 →
        (inplaceLoop fuel buf r k len).1.getD (r + j) 0 =
          (des3_key_to_random xs).getD j 0) := by
  induction fuel with
  | zero =>
      intro buf r k len xs hfuel hrk hklen hxs hagree
      have h0 : inplaceLoop 0 buf r k len = (buf, 0) := rfl
      have hout : des3_key_to_random xs = [] := by
        rw [des3_key_to_random_eq, if_neg (by omega)]
      rw [h0]
      exact ⟨rfl, by rw [hout]; rfl, fun p _ => rfl, fun j hj => by omega⟩
  | succ n ih =>
      intro buf r k len xs hfuel hrk hklen hxs hagree
      have hstep : inplaceLoop (n + 1) buf r k len =
          if 8 < len then
            ((inplaceLoop n (des3_strip_parity_bits_inplace buf r k)
                (r + 7) (k + 8) (len - 8)).1,
             (inplaceLoop n (des3_strip_parity_bits_inplace buf r k)
                (r + 7) (k + 8) (len - 8)).2 + 7)
          else (buf, 0) := rfl
      by_cases hbig : 8 < len
      · obtain ⟨hb1, hb2, hb3⟩ := strip_inplace_spec buf r k hrk (by omega)
        obtain ⟨ih1, ih2, ih3, ih4⟩ :=
          ih (des3_strip_parity_bits_inplace buf r k) (r + 7) (k + 8)
            (len - 8) (xs.drop 8) (by omega) (by omega) (by rw [hb1]; omega)
            (by simp [List.length_drop]; omega)
            (fun i hi => by
              rw [hb2 (k + 8 + i) (Or.inr (by omega)), getD_drop]
              have h := hagree (8 + i) (by omega)
              rwa [← Nat.add_assoc] at h)
        have hxs8 : 8 < xs.length := by omega
        have hout : des3_key_to_random xs =
            des3_strip_parity_bits xs ++ des3_key_to_random (xs.drop 8) := by
          rw [des3_key_to_random_eq, if_pos hxs8]
        have houtlen : (des3_key_to_random xs).length =
            7 + (des3_key_to_random (xs.drop 8)).length := by
          rw [hout]
          simp [des3_strip_parity_bits_length]
        rw [hstep, if_pos hbig]
        refine ⟨by rw [ih1, hb1], by rw [ih2, houtlen]; omega, ?_, ?_⟩
        · intro p hp
          rw [ih3 p (by omega)]
          exact hb2 p (Or.inl (by omega))
        · intro j hj
          by_cases hj7 : j < 7
          · rw [ih3 (r + j) (by omega), hb3 j hj7, hout,
              getD_append_left _ _ _ (by rw [des3_strip_parity_bits_length]; omega),
              des3_strip_parity_bits_getD xs j hj7,
              hagree j (by omega), hagree 7 (by omega)]
          · have heqj : r + j = (r + 7) + (j - 7) := by omega
            have hj' : j - 7 <
                (inplaceLoop n (des3_strip_parity_bits_inplace buf r k)
                  (r + 7) (k + 8) (len - 8)).2 := by
              simp only at hj
              omega
            rw [heqj, ih4 (j - 7) hj', hout,
              getD_append_right _ _ _ (by rw [des3_strip_parity_bits_length]; omega),
              des3_strip_parity_bits_length]
      · have hout : des3_key_to_random xs = [] := by
          rw [des3_key_to_random_eq, if_neg (by omega)]
        rw [hstep, if_neg hbig]
        exact ⟨rfl, by rw [hout]; rfl, fun p _ => rfl, fun j hj => by omega⟩

/-! ### Claim C10 -/

/-- C10 (confirmed): calling des3_key_to_random with the output buffer
aliased to the input buffer, as derive_key does, produces the same output
bytes as the out-of-place computation on a copy of the input: the first
new_len bytes of the buffer after the in-place unweave are exactly the
functional unweave of the original buffer contents (the write cursor
advances by 7 while the read cursor advances by 8, so no read is ever
clobbered by an earlier write). -/
theorem c10_inplace_unweave_refines (l : List Nat) :
    (key_to_random_inplace l 0 0 l.length).1.take
        (key_to_random_inplace l 0 0 l.length).2 =
      des3_key_to_random l := by
  have hk : key_to_random_inplace l 0 0 l.length =
      inplaceLoop l.length l 0 0 l.length := rfl
  obtain ⟨h1, h2, h3, h4⟩ :=
    inplaceLoop_spec l.length l 0 0 l.length l (le_refl _) (le_refl 0)
      (by omega) rfl (fun i _ => by rw [Nat.zero_add])
  rw [hk]
  apply List.ext_getElem?
  intro n
  by_cases hn : n < (inplaceLoop l.length l 0 0 l.length).2
  · have hlt : n < (des3_key_to_random l).length := by omega
    have hlen1 : n < (inplaceLoop l.length l 0 0 l.length).1.length := by
      have hle := des3_key_to_random_length_le l.length l (le_refl _)
      omega
    have hval := h4 n hn
    rw [Nat.zero_add, List.getD_eq_getElem?_getD, List.getD_eq_getElem?_getD,
      List.getElem?_eq_getElem hlen1, List.getElem?_eq_getElem hlt] at hval
    simp only [Option.getD_some] at hval
    rw [List.getElem?_take_of_lt hn, List.getElem?_eq_getElem hlen1,
      List.getElem?_eq_getElem hlt, hval]
  · have h5 : (des3_key_to_random l).length ≤ n := by omega
    rw [List.getElem?_take_eq_none (by omega), List.getElem?_eq_none h5]

end Aklog
